import Mathlib

/-!
Verification development for the LaunchPad real-time session orchestration
subsystem.  The definitions below are a shallow embedding of the TypeScript
source: `AgentSession` (session orchestrator), `AudioEngine` (playback
scheduling), `ToolExecutor` (tool registry and guarded execution),
`A2ARouter` (remote agent registry and dispatch), `EventEmitter`
(publish/subscribe) and the PCM encoding utility `createPcmBlob`.

External collaborators (storage, the streaming engine, the HTTP transport,
the audio device clock) are modelled as explicit inputs: tool handlers
return `Except String ToolResult` where `.error` models a thrown JS error,
the router transport is a `TransportOutcome` value, and device time is a
rational parameter.  Machine floats are modelled by rationals, and the
16-bit store of `Int16Array` is an explicit wrap modulo 2 to the 16.
-/

namespace LaunchPad

/-- A finalized transcript turn: role ("user" or "model"), text, timestamp. -/
structure TranscriptTurn where
  role : String
  text : String
  timestamp : Nat
deriving Repr, DecidableEq

/-- Per-persona memory configuration (enabled flag and history-turn limit). -/
structure MemoryConfig where
  enabled : Bool
  historyLimit : Nat
deriving Repr, DecidableEq

/-- The slice of an agent persona read by the orchestrator. -/
structure Agent where
  id : String
  name : String
  voice : String
  memory : MemoryConfig
deriving Repr, DecidableEq

/-- An agent file as tracked in session file state. -/
structure AgentFile where
  id : String
  name : String
  content : String
  updatedAt : Nat
deriving Repr, DecidableEq

/-- Data payload of a successful tool result (`file`, `present`, `message`). -/
structure ToolData where
  file : Option AgentFile
  present : Bool
  message : Option String
deriving Repr, DecidableEq

/-- ToolResult: success flag, optional data payload, optional error message. -/
structure ToolResult where
  success : Bool
  data : Option ToolData
  error : Option String
deriving Repr, DecidableEq

/-- Tool-call arguments: an association list of string-valued fields. -/
abbrev ToolArgs := List (String × String)

/-- Shared mutable context handed to tool handlers (persona list, file list). -/
structure ToolContext where
  agents : List Agent
  files : List AgentFile
deriving Repr, DecidableEq

/-- A registered tool handler.  `run` returning `.error msg` models the JS
handler throwing an error whose message is `msg`. -/
structure ToolHandler where
  name : String
  run : ToolArgs → ToolContext → Except String ToolResult

/-- `ToolExecutor.registerTool`: `Map.set` semantics, the new handler replaces
any previously registered handler of the same name. -/
def registerTool (tools : List ToolHandler) (h : ToolHandler) : List ToolHandler :=
  h :: tools.filter (fun t => !(t.name == h.name))

/-- `this.tools.get(name)` on the registry. -/
def findTool (tools : List ToolHandler) (name : String) : Option ToolHandler :=
  tools.find? (fun t => t.name == name)

/-- `ToolExecutor.execute(name, args)`: an unknown name yields a failure
result mentioning the name; a registered handler runs inside a guard that
converts a thrown error into a failure result.  Totality of this function is
the embedding of "never throws". -/
def execute (tools : List ToolHandler) (name : String) (args : ToolArgs)
    (ctx : ToolContext) : ToolResult :=
  match findTool tools name with
  | none => { success := false, data := none, error := some ("Unknown tool: " ++ name) }
  | some h =>
    match h.run args ctx with
    | .ok r => r
    | .error e => { success := false, data := none, error := some e }

/-- A scheduled playback unit: its start time and buffer duration, seconds. -/
structure Sched where
  start : ℚ
  dur : ℚ
deriving Repr, DecidableEq

/-- `AudioEngine` playback state: the tracked source set and the logical
`nextStartTime` clock (0 initially and after an interruption). -/
structure AudioState where
  sources : List Sched
  nextStartTime : ℚ
deriving Repr, DecidableEq

/-- `AudioEngine.playAudio` on one decoded payload: `t` is the output
context device `currentTime` when the payload is processed and `dur` the
decoded buffer duration.  The clock is clamped to
`max(nextStartTime, currentTime)`, the unit starts there, the clock then
advances by the duration and the unit is tracked. -/
def playAudio (t dur : ℚ) (s : AudioState) : AudioState × Sched :=
  let st := max s.nextStartTime t
  let u : Sched := { start := st, dur := dur }
  ({ sources := s.sources ++ [u], nextStartTime := st + dur }, u)

/-- Sequential processing of a list of payloads `(currentTime, duration)`
with no intervening interruption; returns the final state and the scheduled
units in order. -/
def playSeq (inputs : List (ℚ × ℚ)) (s : AudioState) : AudioState × List Sched :=
  match inputs with
  | [] => (s, [])
  | p :: ps =>
    let step := playAudio p.1 p.2 s
    let rest := playSeq ps step.1
    (rest.1, step.2 :: rest.2)

/-- `AudioEngine.handleInterruption`: stop every tracked unit, clear the
tracked set, reset `nextStartTime` to 0. -/
def handleInterruption (s : AudioState) : AudioState :=
  { sources := [], nextStartTime := 0 }

/-- Session orchestrator state-machine states. -/
inductive SState
  | disconnected
  | connecting
  | connected
  | errorState
deriving Repr, DecidableEq

/-- The mutable state of one `AgentSession`: connection state, whether the
stream handle (`this.session`) is non-null, whether the audio engine is
present, the persona set, session file state, the finalized transcript and
the two per-turn transcription accumulators, plus the audio engine state. -/
structure SessState where
  sstate : SState
  sessionOpen : Bool
  audioEnginePresent : Bool
  agents : List Agent
  files : List AgentFile
  transcript : List TranscriptTurn
  currentInputTranscript : String
  currentOutputTranscript : String
  audio : AudioState
deriving Repr, DecidableEq

/-- `AgentSession.addFile`: prepend the new file and refresh the tool
context (the refreshed context is recomputed from `files` on each call). -/
def addFile (s : SessState) (f : AgentFile) : SessState :=
  { s with files := f :: s.files }

/-- An inbound function call of a tool-call batch. -/
structure FunctionCall where
  id : String
  name : String
  args : ToolArgs
deriving Repr, DecidableEq

/-- The structured tool response sent back over the stream for one call:
`ok = true` carries `response.result`, `ok = false` carries `response.error`. -/
structure ToolResponse where
  id : String
  name : String
  ok : Bool
  message : String
deriving Repr, DecidableEq

/-- Argument lookup on the destructured `fc.args`. -/
def getArg (args : ToolArgs) (key : String) : String :=
  ((args.find? (fun p => p.1 == key)).map Prod.snd).getD ""

/-- The response payload mapping of `handleToolCalls`: success maps to
`result: data?.message || Success` (JS `||`, so a missing or empty message
falls back), failure maps to `error: result.error`. -/
def responseFor (fc : FunctionCall) (r : ToolResult) : ToolResponse :=
  if r.success then
    let m := (r.data.bind (fun d => d.message)).getD ""
    { id := fc.id, name := fc.name, ok := true,
      message := if m = "" then "Success" else m }
  else
    { id := fc.id, name := fc.name, ok := false, message := r.error.getD "" }

/-- The result obtained for one call of the batch.  A `dispatchToAgent`
call is intercepted: the A2A router is awaited (`routeO fc` is the outcome
of `router.route`, `.ok` carrying the JSON-stringified response, `.error`
a rejected promise) and the outcome is wrapped as a generic success or
failure result.  Any other name goes to `ToolExecutor.execute` with the
current shared context. -/
def callResult (routeO : FunctionCall → Except String String)
    (tools : List ToolHandler) (s : SessState) (fc : FunctionCall) : ToolResult :=
  if fc.name == "dispatchToAgent" then
    match routeO fc with
    | .ok resp =>
      { success := true,
        data := some { file := none, present := false, message := some resp },
        error := none }
    | .error e => { success := false, data := none, error := some e }
  else
    execute tools fc.name fc.args { agents := s.agents, files := s.files }

/-- The acknowledgement system message sent before a delegation call is
routed (`sendSystemMessage` returns without sending when the stream handle
is null). -/
def callAck (s : SessState) (fc : FunctionCall) : List String :=
  if fc.name == "dispatchToAgent" then
    if s.sessionOpen then
      ["[System] Handing off task \x27" ++ getArg fc.args "task" ++ "\x27 to agent..."]
    else []
  else []

/-- The file-commit step of `handleToolCalls`: a successful result carrying
a file is committed via `addFile` only for `createFile` and `generateImage`
(`presentFile` returns an existing file, which is not re-added). -/
def commitFile (fc : FunctionCall) (result : ToolResult) (s : SessState) : SessState :=
  if result.success then
    match result.data with
    | some d =>
      match d.file with
      | some f =>
        if fc.name == "createFile" || fc.name == "generateImage" then addFile s f else s
      | none => s
    | none => s
  else s

/-- One iteration of `AgentSession.handleToolCalls`: resolve the call,
commit a created file, and send exactly one tool response correlated by the
call id when the stream handle is non-null.  Returns the new state, the
response sent (if any) and the system messages sent. -/
def runCall (routeO : FunctionCall → Except String String) (tools : List ToolHandler)
    (s : SessState) (fc : FunctionCall) : SessState × Option ToolResponse × List String :=
  let result := callResult routeO tools s fc
  (commitFile fc result s,
   if s.sessionOpen then some (responseFor fc result) else none,
   callAck s fc)

/-- `AgentSession.handleToolCalls`: the batch is processed strictly
sequentially in arrival order — each call runs in the state left by the
previous one and its response is appended before the next call starts. -/
def handleToolCalls (routeO : FunctionCall → Except String String)
    (tools : List ToolHandler) (s : SessState) :
    List FunctionCall → SessState × List ToolResponse × List String
  | [] => (s, [], [])
  | fc :: rest =>
    let step := runCall routeO tools s fc
    let restOut := handleToolCalls routeO tools step.1 rest
    (restOut.1, step.2.1.toList ++ restOut.2.1, step.2.2 ++ restOut.2.2)

/-- Input-transcription fragment handling: concatenate, never overwrite. -/
def appendInputFragment (s : SessState) (frag : String) : SessState :=
  { s with currentInputTranscript := s.currentInputTranscript ++ frag }

/-- Output-transcription fragment handling: concatenate, never overwrite. -/
def appendOutputFragment (s : SessState) (frag : String) : SessState :=
  { s with currentOutputTranscript := s.currentOutputTranscript ++ frag }

/-- JS `String.prototype.trim`: strip leading and trailing whitespace.
(Defined on the character list so that it is kernel-computable; the core
`String.trim` has the same meaning but does not reduce.) -/
def jsTrim (s : String) : String :=
  String.mk (((s.data.dropWhile Char.isWhitespace).reverse.dropWhile
    Char.isWhitespace).reverse)

/-- `AgentSession.finalizeTurn` at wall-clock time `now`: trim both
accumulators, push a user turn then a model turn when the trimmed text is
non-empty (JS truthiness), reset both accumulators. -/
def finalizeTurn (now : Nat) (s : SessState) : SessState :=
  let userText := jsTrim s.currentInputTranscript
  let modelText := jsTrim s.currentOutputTranscript
  let t1 :=
    if userText = "" then s.transcript
    else s.transcript ++ [{ role := "user", text := userText, timestamp := now }]
  let t2 :=
    if modelText = "" then t1
    else t1 ++ [{ role := "model", text := modelText, timestamp := now }]
  { s with transcript := t2, currentInputTranscript := "", currentOutputTranscript := "" }

/-- The interruption branch of `AgentSession.handleServerMessage`: the audio
engine stops all scheduled playback and resets its clock, and only the
output transcript accumulator is cleared. -/
def handleInterruptionSignal (s : SessState) : SessState :=
  { s with audio := handleInterruption s.audio, currentOutputTranscript := "" }

/-- Observable effects of one `AgentSession.disconnect` call: the
`saveSessionTranscript` writes performed (persona id with the turns written),
whether the stream handle was closed, whether the audio engine was stopped,
and whether the session-end callback was invoked. -/
structure DisconnectEffects where
  writes : List (String × List TranscriptTurn)
  closedStream : Bool
  stoppedAudio : Bool
  invokedOnSessionEnd : Bool
deriving Repr, DecidableEq

/-- `AgentSession.disconnect`: when the transcript is non-empty, write one
SessionTranscript per persona with memory enabled; close the stream handle
if non-null and null it; stop the audio engine if present and null it;
invoke the session-end callback; transition to `disconnected`. -/
def disconnect (s : SessState) : SessState × DisconnectEffects :=
  let writes :=
    if s.transcript.length > 0 then
      (s.agents.filter (fun a => a.memory.enabled)).map (fun a => (a.id, s.transcript))
    else []
  let s1 := { s with
    sessionOpen := false,
    audioEnginePresent := false,
    audio := if s.audioEnginePresent then handleInterruption s.audio else s.audio,
    sstate := SState.disconnected }
  (s1, { writes := writes, closedStream := s.sessionOpen,
         stoppedAudio := s.audioEnginePresent, invokedOnSessionEnd := true })

/-- A declared remote capability. -/
structure Capability where
  name : String
deriving Repr, DecidableEq

/-- A remote-agent capability card. -/
structure AgentCard where
  id : String
  name : String
  description : String
  version : String
  capabilities : List Capability
deriving Repr, DecidableEq

/-- The router registry (a map keyed by agent id). -/
abbrev Registry := List AgentCard

/-- `this.agents.get(agentId)`. -/
def regGet (reg : Registry) (agentId : String) : Option AgentCard :=
  reg.find? (fun c => c.id == agentId)

/-- `A2ARouter.register`: last write wins on the id key. -/
def regRegister (reg : Registry) (card : AgentCard) : Registry :=
  card :: reg.filter (fun c => !(c.id == card.id))

/-- One outcome of the HTTP dispatch transport: either the fetch promise
rejects, or a response arrives with its `ok` flag, `statusText`, and the
parsed body fields `status`, `error`, `result`. -/
inductive TransportOutcome
  | thrown (msg : String)
  | response (ok : Bool) (statusText : String) (status : String)
      (err : Option String) (result : String)
deriving Repr, DecidableEq

/-- `A2ARouter.route(targetId, task, payload)`: look up the card (absent
throws an agent-not-found error before any network activity), then issue
exactly one dispatch request; a non-ok transport response or a body with
`status = error` surfaces as a failure, otherwise the embedded result is
returned.  The second component counts network requests issued. -/
def route (reg : Registry) (transport : TransportOutcome)
    (targetId task payload : String) : Except String String × Nat :=
  match regGet reg targetId with
  | none => (.error ("Agent " ++ targetId ++ " not found."), 0)
  | some _ =>
    match transport with
    | .thrown m => (.error m, 1)
    | .response ok statusText status err result =>
      if ok = false then (.error ("Backend dispatch failed: " ++ statusText), 1)
      else if status = "error" then
        (.error (match err with
          | some e => if e = "" then "Unknown backend error" else e
          | none => "Unknown backend error"), 1)
      else (.ok result, 1)

/-- Outcome of invoking one event listener: it returned, or it threw and the
per-listener guard caught the error. -/
inductive ListenerOutcome
  | ok
  | caught (msg : String)
deriving Repr, DecidableEq

/-- `EventEmitter.emit` over the listeners subscribed to one event, with
emitted argument `a`.  Each listener runs inside its own try/catch: a thrown
error (`.error`) is caught and logged and the iteration continues, so the
whole emission is total. -/
def emit {A : Type} (listeners : List (A → Except String Unit)) (a : A) :
    List ListenerOutcome :=
  match listeners with
  | [] => []
  | l :: rest =>
    (match l a with
     | .ok _ => ListenerOutcome.ok
     | .error e => ListenerOutcome.caught e) :: emit rest a

/-- JS `ToInteger` truncation toward zero of a finite number, on rationals. -/
def jsTrunc (q : ℚ) : ℤ := if 0 ≤ q then ⌊q⌋ else ⌈q⌉

/-- Storing an integer into an `Int16Array` element: wrap modulo 2 to the
16 into the interval from -32768 to 32767 (no clamping). -/
def toInt16 (n : ℤ) : ℤ := (n + 32768) % 65536 - 32768

/-- The per-sample conversion of `createPcmBlob`: `int16[i] = data[i] * 32768`. -/
def pcmSample (x : ℚ) : ℤ := toInt16 (jsTrunc (x * 32768))

/-- `createPcmBlob`: elementwise Float32-to-Int16 conversion of the frame. -/
def createPcmBlob (data : List ℚ) : List ℤ := data.map pcmSample

/-! ### Concrete fixtures used by witnesses and counterexamples -/

/-- A persona with memory enabled, as in the spec scenario. -/
def agentOne : Agent :=
  { id := "1", name := "Alex", voice := "Puck",
    memory := { enabled := true, historyLimit := 5 } }

/-- A connected session with the stream handle and audio engine live. -/
def liveState : SessState :=
  { sstate := SState.connected, sessionOpen := true, audioEnginePresent := true,
    agents := [agentOne], files := [], transcript := [],
    currentInputTranscript := "", currentOutputTranscript := "",
    audio := { sources := [], nextStartTime := 0 } }

/-- `liveState` after one finalized user turn. -/
def liveStateWithTurn : SessState :=
  { liveState with transcript := [{ role := "user", text := "hi", timestamp := 0 }] }

/-- A router oracle whose remote dispatch always fails. -/
def failingRoute : FunctionCall → Except String String :=
  fun _ => Except.error "remote down"

/-- A router oracle whose remote dispatch always succeeds. -/
def okRoute : FunctionCall → Except String String :=
  fun _ => Except.ok "done"

/-- A registered handler whose execution always throws. -/
def throwingHandler : ToolHandler :=
  { name := "boom", run := fun _ _ => Except.error "kaput" }

/-- A delegation call. -/
def dispatchCall : FunctionCall :=
  { id := "call-1", name := "dispatchToAgent",
    args := [("targetAgentId", "42"), ("task", "summarize"), ("input", "x")] }

/-- A local tool call following the delegation call in the same batch. -/
def localCall : FunctionCall :=
  { id := "call-2", name := "presentFile", args := [("fileName", "notes.md")] }

/-- Listeners for the emitter witness: the first throws, the second returns. -/
def listenerPair : List (Nat → Except String Unit) :=
  [fun _ => Except.error "boom", fun _ => Except.ok ()]

/-! ### Helper lemmas -/

/-- Committing a file only touches the session file list. -/
lemma commitFile_frame (fc : FunctionCall) (r : ToolResult) (s : SessState) :
    (commitFile fc r s).sessionOpen = s.sessionOpen
  ∧ (commitFile fc r s).sstate = s.sstate
  ∧ (commitFile fc r s).audioEnginePresent = s.audioEnginePresent
  ∧ (commitFile fc r s).agents = s.agents
  ∧ (commitFile fc r s).transcript = s.transcript
  ∧ (commitFile fc r s).currentInputTranscript = s.currentInputTranscript
  ∧ (commitFile fc r s).currentOutputTranscript = s.currentOutputTranscript
  ∧ (commitFile fc r s).audio = s.audio := by
  unfold commitFile addFile
  rcases r with ⟨su, da, er⟩
  rcases su
  · simp
  · rcases da with _ | d
    · simp
    · rcases d with ⟨f, p, m⟩
      rcases f with _ | f
      · simp
      · by_cases h : (fc.name == "createFile" || fc.name == "generateImage") = true
        · simp [h]
        · simp [h]

/-- A failed result commits nothing. -/
lemma commitFile_of_failure (fc : FunctionCall) (r : ToolResult) (s : SessState)
    (h : r.success = false) : commitFile fc r s = s := by
  unfold commitFile
  rw [h]
  simp

/-- `runCall` unfolded. -/
lemma runCall_eq (routeO : FunctionCall → Except String String)
    (tools : List ToolHandler) (s : SessState) (fc : FunctionCall) :
    runCall routeO tools s fc
      = (commitFile fc (callResult routeO tools s fc) s,
         if s.sessionOpen then some (responseFor fc (callResult routeO tools s fc)) else none,
         callAck s fc) := rfl

/-- One call never changes whether the stream handle is non-null. -/
lemma runCall_sessionOpen (routeO : FunctionCall → Except String String)
    (tools : List ToolHandler) (s : SessState) (fc : FunctionCall) :
    (runCall routeO tools s fc).1.sessionOpen = s.sessionOpen :=
  (commitFile_frame fc (callResult routeO tools s fc) s).1

/-- `handleToolCalls` on the empty batch. -/
lemma handleToolCalls_nil (routeO : FunctionCall → Except String String)
    (tools : List ToolHandler) (s : SessState) :
    handleToolCalls routeO tools s [] = (s, [], []) := rfl

/-- `handleToolCalls` runs the head call and then the rest in its post-state. -/
lemma handleToolCalls_cons (routeO : FunctionCall → Except String String)
    (tools : List ToolHandler) (s : SessState) (fc : FunctionCall)
    (rest : List FunctionCall) :
    handleToolCalls routeO tools s (fc :: rest)
      = ((handleToolCalls routeO tools (runCall routeO tools s fc).1 rest).1,
         (runCall routeO tools s fc).2.1.toList
           ++ (handleToolCalls routeO tools (runCall routeO tools s fc).1 rest).2.1,
         (runCall routeO tools s fc).2.2
           ++ (handleToolCalls routeO tools (runCall routeO tools s fc).1 rest).2.2) := rfl

/-- A batch never changes whether the stream handle is non-null. -/
lemma handleToolCalls_sessionOpen (routeO : FunctionCall → Except String String)
    (tools : List ToolHandler) (calls : List FunctionCall) :
    ∀ s : SessState, (handleToolCalls routeO tools s calls).1.sessionOpen = s.sessionOpen := by
  induction calls with
  | nil => intro s; rfl
  | cons fc rest ih =>
    intro s
    rw [handleToolCalls_cons]
    exact (ih (runCall routeO tools s fc).1).trans (runCall_sessionOpen routeO tools s fc)

/-- Processing a concatenated batch is processing the first part and then the
second part in the state the first part left behind. -/
lemma handleToolCalls_append (routeO : FunctionCall → Except String String)
    (tools : List ToolHandler) (calls1 calls2 : List FunctionCall) :
    ∀ s : SessState,
      handleToolCalls routeO tools s (calls1 ++ calls2)
        = ((handleToolCalls routeO tools (handleToolCalls routeO tools s calls1).1 calls2).1,
           (handleToolCalls routeO tools s calls1).2.1
             ++ (handleToolCalls routeO tools (handleToolCalls routeO tools s calls1).1 calls2).2.1,
           (handleToolCalls routeO tools s calls1).2.2
             ++ (handleToolCalls routeO tools (handleToolCalls routeO tools s calls1).1 calls2).2.2) := by
  induction calls1 with
  | nil => intro s; simp [handleToolCalls_nil]
  | cons fc rest ih =>
    intro s
    rw [List.cons_append, handleToolCalls_cons, handleToolCalls_cons, ih]
    simp [List.append_assoc]

/-- With a live stream handle, the batch sends one response per call carrying
that call's id and name, in arrival order. -/
lemma handleToolCalls_response_ids (routeO : FunctionCall → Except String String)
    (tools : List ToolHandler) (calls : List FunctionCall) :
    ∀ s : SessState, s.sessionOpen = true →
      (handleToolCalls routeO tools s calls).2.1.map (fun r => (r.id, r.name))
        = calls.map (fun c => (c.id, c.name)) := by
  induction calls with
  | nil => intro s _; rfl
  | cons fc rest ih =>
    intro s hopen
    have hopen2 : (runCall routeO tools s fc).1.sessionOpen = true :=
      (runCall_sessionOpen routeO tools s fc).trans hopen
    have hresp : (runCall routeO tools s fc).2.1
        = some (responseFor fc (callResult routeO tools s fc)) := by
      rw [runCall_eq]
      simp [hopen]
    rw [handleToolCalls_cons, List.map_append, hresp,
      ih (runCall routeO tools s fc).1 hopen2]
    rcases h : (callResult routeO tools s fc).success
    · simp [responseFor, h]
    · simp [responseFor, h]

/-- With a live stream handle, exactly one response is sent per call. -/
lemma handleToolCalls_response_length (routeO : FunctionCall → Except String String)
    (tools : List ToolHandler) (calls : List FunctionCall)
    (s : SessState) (hopen : s.sessionOpen = true) :
    (handleToolCalls routeO tools s calls).2.1.length = calls.length := by
  have h := congrArg List.length (handleToolCalls_response_ids routeO tools calls s hopen)
  simpa using h

/-- `playSeq` unfolded on a cons. -/
lemma playSeq_cons (p : ℚ × ℚ) (ps : List (ℚ × ℚ)) (s : AudioState) :
    playSeq (p :: ps) s
      = ((playSeq ps (playAudio p.1 p.2 s).1).1,
         (playAudio p.1 p.2 s).2 :: (playSeq ps (playAudio p.1 p.2 s).1).2) := rfl

/-- One scheduled unit is produced per payload. -/
lemma playSeq_length (inputs : List (ℚ × ℚ)) :
    ∀ s : AudioState, (playSeq inputs s).2.length = inputs.length := by
  induction inputs with
  | nil => intro s; rfl
  | cons p ps ih =>
    intro s
    rw [playSeq_cons]
    simp [ih]

/-- With non-negative durations, every unit scheduled from state `s` starts no
earlier than the clock value `s.nextStartTime`. -/
lemma playSeq_start_ge_clock (inputs : List (ℚ × ℚ))
    (hdur : ∀ p ∈ inputs, 0 ≤ p.2) :
    ∀ s : AudioState, ∀ u ∈ (playSeq inputs s).2, s.nextStartTime ≤ u.start := by
  induction inputs with
  | nil => intro s u hu; simp [playSeq] at hu
  | cons p ps ih =>
    intro s u hu
    rw [playSeq_cons] at hu
    rcases List.mem_cons.mp hu with h | h
    · subst h
      exact le_max_left _ _
    · have h1 : (playAudio p.1 p.2 s).1.nextStartTime ≤ u.start :=
        ih (fun q hq => hdur q (List.mem_cons_of_mem p hq)) (playAudio p.1 p.2 s).1 u h
      have h2 : s.nextStartTime ≤ (playAudio p.1 p.2 s).1.nextStartTime := by
        show s.nextStartTime ≤ max s.nextStartTime p.1 + p.2
        have := hdur p (List.mem_cons_self p ps)
        have hm : s.nextStartTime ≤ max s.nextStartTime p.1 := le_max_left _ _
        linarith
      exact h2.trans h1

/-- Each scheduled start lies at or after the device time of its payload, and
each unit carries its payload's duration. -/
lemma playSeq_not_in_past (inputs : List (ℚ × ℚ)) :
    ∀ s : AudioState,
      List.Forall₂ (fun (p : ℚ × ℚ) (u : Sched) => p.1 ≤ u.start ∧ u.dur = p.2)
        inputs (playSeq inputs s).2 := by
  induction inputs with
  | nil => intro s; exact List.Forall₂.nil
  | cons p ps ih =>
    intro s
    rw [playSeq_cons]
    exact List.Forall₂.cons ⟨le_max_right _ _, rfl⟩ (ih (playAudio p.1 p.2 s).1)

/-- Adjacent scheduled units never overlap: each start is at least the previous
start plus the previous duration. -/
lemma playSeq_no_overlap (inputs : List (ℚ × ℚ))
    (hdur : ∀ p ∈ inputs, 0 ≤ p.2) :
    ∀ s : AudioState,
      List.Chain' (fun a b : Sched => a.start + a.dur ≤ b.start) (playSeq inputs s).2 := by
  induction inputs with
  | nil => intro s; exact List.chain'_nil
  | cons p ps ih =>
    intro s
    rw [playSeq_cons]
    have htail : ∀ p2 ∈ ps, (0 : ℚ) ≤ p2.2 :=
      fun q hq => hdur q (List.mem_cons_of_mem p hq)
    refine List.chain'_cons'.mpr ⟨?_, ih htail (playAudio p.1 p.2 s).1⟩
    intro u hu
    have hm : u ∈ (playSeq ps (playAudio p.1 p.2 s).1).2 := List.mem_of_mem_head? hu
    have := playSeq_start_ge_clock ps htail (playAudio p.1 p.2 s).1 u hm
    exact this

/-- Scheduled start times are non-decreasing. -/
lemma playSeq_monotone (inputs : List (ℚ × ℚ))
    (hdur : ∀ p ∈ inputs, 0 ≤ p.2) :
    ∀ s : AudioState,
      List.Chain' (fun a b : Sched => a.start ≤ b.start) (playSeq inputs s).2 := by
  induction inputs with
  | nil => intro s; exact List.chain'_nil
  | cons p ps ih =>
    intro s
    rw [playSeq_cons]
    have htail : ∀ p2 ∈ ps, (0 : ℚ) ≤ p2.2 :=
      fun q hq => hdur q (List.mem_cons_of_mem p hq)
    refine List.chain'_cons'.mpr ⟨?_, ih htail (playAudio p.1 p.2 s).1⟩
    intro u hu
    have hm : u ∈ (playSeq ps (playAudio p.1 p.2 s).1).2 := List.mem_of_mem_head? hu
    have h1 := playSeq_start_ge_clock ps htail (playAudio p.1 p.2 s).1 u hm
    have h0 := hdur p (List.mem_cons_self p ps)
    show (playAudio p.1 p.2 s).2.start ≤ u.start
    have : (playAudio p.1 p.2 s).2.start + p.2 = (playAudio p.1 p.2 s).1.nextStartTime := rfl
    linarith [h1, this]

/-- `emit` produces one outcome per listener. -/
lemma emit_length {A : Type} (listeners : List (A → Except String Unit)) (a : A) :
    (emit listeners a).length = listeners.length := by
  induction listeners with
  | nil => rfl
  | cons l rest ih => simp [emit, ih]

/-! ### Claims -/

/-- C1: every inbound tool-call batch is executed strictly sequentially in
arrival order — a concatenated batch is processed by running the first part
and then the second part in the state the first part left behind — and with
a live stream handle exactly one tool response is sent per call, carrying
that call's id, in the order the calls were received. -/
theorem handleToolCalls_sequential_one_response_per_call
    (routeO : FunctionCall → Except String String) (tools : List ToolHandler)
    (s : SessState) (calls1 calls2 calls : List FunctionCall)
    (hopen : s.sessionOpen = true) :
    (handleToolCalls routeO tools s (calls1 ++ calls2)
      = ((handleToolCalls routeO tools (handleToolCalls routeO tools s calls1).1 calls2).1,
         (handleToolCalls routeO tools s calls1).2.1
           ++ (handleToolCalls routeO tools (handleToolCalls routeO tools s calls1).1 calls2).2.1,
         (handleToolCalls routeO tools s calls1).2.2
           ++ (handleToolCalls routeO tools (handleToolCalls routeO tools s calls1).1 calls2).2.2))
  ∧ (handleToolCalls routeO tools s calls).2.1.length = calls.length
  ∧ (handleToolCalls routeO tools s calls).2.1.map (fun r => (r.id, r.name))
      = calls.map (fun c => (c.id, c.name)) := by
  refine ⟨handleToolCalls_append routeO tools calls1 calls2 s,
    handleToolCalls_response_length routeO tools calls s hopen,
    handleToolCalls_response_ids routeO tools calls s hopen⟩

/-- C1 witness: a concrete two-call batch on a live session yields exactly two
responses whose ids and names match the calls in order. -/
theorem handleToolCalls_sequential_one_response_per_call_witness :
    liveState.sessionOpen = true
  ∧ (handleToolCalls okRoute [] liveState [dispatchCall, localCall]).2.1.map
      (fun r => (r.id, r.name))
      = [("call-1", "dispatchToAgent"), ("call-2", "presentFile")] := by
  refine ⟨rfl, ?_⟩
  have h := (handleToolCalls_sequential_one_response_per_call okRoute [] liveState
    [] [] [dispatchCall, localCall] rfl).2.2
  rw [h]
  rfl

/-- C2: for every sequence of inbound audio payloads processed with no
intervening interruption, one unit is scheduled per payload; each unit starts
no earlier than the device time of its payload (never in the past) and keeps
the payload's duration; adjacent units never overlap (each start is at least
the previous start plus the previous duration); and, durations being
non-negative, start times are non-decreasing. -/
theorem playAudio_gapless_monotone_schedule (inputs : List (ℚ × ℚ))
    (s : AudioState) (hdur : ∀ p ∈ inputs, 0 ≤ p.2) :
    (playSeq inputs s).2.length = inputs.length
  ∧ List.Forall₂ (fun (p : ℚ × ℚ) (u : Sched) => p.1 ≤ u.start ∧ u.dur = p.2)
      inputs (playSeq inputs s).2
  ∧ List.Chain' (fun a b : Sched => a.start + a.dur ≤ b.start) (playSeq inputs s).2
  ∧ List.Chain' (fun a b : Sched => a.start ≤ b.start) (playSeq inputs s).2 :=
  ⟨playSeq_length inputs s, playSeq_not_in_past inputs s,
   playSeq_no_overlap inputs hdur s, playSeq_monotone inputs hdur s⟩

/-- C2 witness: three concrete payloads, the third arriving while the clock is
ahead of device time, scheduled from the initial engine state. -/
theorem playAudio_gapless_monotone_schedule_witness :
    (∀ p ∈ [((0 : ℚ), (1 : ℚ)), (5, 2), (3, 1)], 0 ≤ p.2)
  ∧ ((playSeq [((0 : ℚ), (1 : ℚ)), (5, 2), (3, 1)]
        { sources := [], nextStartTime := 0 }).2.length = 3
      ∧ List.Forall₂ (fun (p : ℚ × ℚ) (u : Sched) => p.1 ≤ u.start ∧ u.dur = p.2)
          [((0 : ℚ), (1 : ℚ)), (5, 2), (3, 1)]
          (playSeq [((0 : ℚ), (1 : ℚ)), (5, 2), (3, 1)]
            { sources := [], nextStartTime := 0 }).2
      ∧ List.Chain' (fun a b : Sched => a.start + a.dur ≤ b.start)
          (playSeq [((0 : ℚ), (1 : ℚ)), (5, 2), (3, 1)]
            { sources := [], nextStartTime := 0 }).2
      ∧ List.Chain' (fun a b : Sched => a.start ≤ b.start)
          (playSeq [((0 : ℚ), (1 : ℚ)), (5, 2), (3, 1)]
            { sources := [], nextStartTime := 0 }).2) := by
  refine ⟨by decide, ?_⟩
  have h := playAudio_gapless_monotone_schedule
    [((0 : ℚ), (1 : ℚ)), (5, 2), (3, 1)] { sources := [], nextStartTime := 0 }
    (by decide)
  have hlen : (playSeq [((0 : ℚ), (1 : ℚ)), (5, 2), (3, 1)]
      { sources := [], nextStartTime := 0 }).2.length = 3 := by
    rw [playSeq_length]
    rfl
  exact ⟨hlen, h.2.1, h.2.2.1, h.2.2.2⟩

/-- C3: on a turn-complete signal `finalizeTurn` resets both accumulators to
empty and appends to the transcript exactly the trimmed-non-empty turns, user
before model (in particular zero turns when both accumulators trim to empty);
and the concrete scenario of input fragments "hel" then "lo" followed by
turn-complete appends exactly one user turn with text "hello". -/
theorem finalizeTurn_trims_appends_resets (now : Nat) (s : SessState) :
    (finalizeTurn now s).currentInputTranscript = ""
  ∧ (finalizeTurn now s).currentOutputTranscript = ""
  ∧ (finalizeTurn now s).transcript
      = s.transcript
        ++ (if jsTrim s.currentInputTranscript = "" then []
            else [{ role := "user", text := jsTrim s.currentInputTranscript,
                    timestamp := now }])
        ++ (if jsTrim s.currentOutputTranscript = "" then []
            else [{ role := "model", text := jsTrim s.currentOutputTranscript,
                    timestamp := now }])
  ∧ (finalizeTurn 0 (appendInputFragment (appendInputFragment liveState "hel") "lo")).transcript
      = [{ role := "user", text := "hello", timestamp := 0 }] := by
  refine ⟨rfl, rfl, ?_, by decide⟩
  unfold finalizeTurn
  by_cases h1 : jsTrim s.currentInputTranscript = ""
  · by_cases h2 : jsTrim s.currentOutputTranscript = "" <;> simp [h1, h2]
  · by_cases h2 : jsTrim s.currentOutputTranscript = "" <;> simp [h1, h2]

/-- C4 counterexample: `disconnect` is not an idempotent no-op.  On a session
with one memory-enabled persona and a non-empty transcript, a second call to
`disconnect` writes a SessionTranscript record again (the transcript is never
cleared, and the save is unguarded), instead of writing no additional
records. -/
theorem disconnect_second_call_writes_again :
    ¬ ((disconnect (disconnect liveStateWithTurn).1).2.writes = []) := by decide

/-- C4 amended: after a first `disconnect`, subsequent calls leave the session
state itself unchanged and do not close the stream or stop the audio engine
again (both handles were nulled), but they are not no-ops: a subsequent call
repeats exactly the first call's SessionTranscript writes — one record per
memory-enabled persona whenever the transcript is non-empty — and invokes the
caller's session-end callback again. -/
theorem disconnect_second_call_effects (s : SessState) :
    (disconnect (disconnect s).1).1 = (disconnect s).1
  ∧ (disconnect (disconnect s).1).2.closedStream = false
  ∧ (disconnect (disconnect s).1).2.stoppedAudio = false
  ∧ (disconnect (disconnect s).1).2.invokedOnSessionEnd = true
  ∧ (disconnect (disconnect s).1).2.writes = (disconnect s).2.writes
  ∧ (s.transcript ≠ [] →
      (disconnect (disconnect s).1).2.writes.length
        = (s.agents.filter (fun a => a.memory.enabled)).length) := by
  refine ⟨by simp [disconnect], rfl, rfl, rfl, rfl, ?_⟩
  intro ht
  have hpos : s.transcript.length > 0 := List.length_pos.mpr ht
  simp [disconnect, hpos]

/-- C4 amended witness: the concrete session of the counterexample, with one
memory-enabled persona and one transcript turn. -/
theorem disconnect_second_call_effects_witness :
    liveStateWithTurn.transcript ≠ []
  ∧ (disconnect (disconnect liveStateWithTurn).1).2.writes.length
      = (liveStateWithTurn.agents.filter (fun a => a.memory.enabled)).length :=
  ⟨by decide, (disconnect_second_call_effects liveStateWithTurn).2.2.2.2.2 (by decide)⟩

/-- C5: `ToolExecutor.execute` is total (the embedding of "never throws"): an
unregistered name yields a failure result whose error message contains the
literal tool name, and a registered handler that throws yields a failure
result carrying the thrown error's message. -/
theorem execute_never_throws (tools : List ToolHandler) (name : String)
    (args : ToolArgs) (ctx : ToolContext) :
    (findTool tools name = none →
      execute tools name args ctx
        = { success := false, data := none, error := some ("Unknown tool: " ++ name) }
      ∧ ∃ pre suf, "Unknown tool: " ++ name = pre ++ name ++ suf)
  ∧ (∀ h e, findTool tools name = some h → h.run args ctx = Except.error e →
      execute tools name args ctx = { success := false, data := none, error := some e }) := by
  constructor
  · intro habs
    refine ⟨?_, "Unknown tool: ", "", by simp⟩
    unfold execute
    rw [habs]
  · intro h e hfound hthrow
    unfold execute
    rw [hfound]
    simp only [hthrow]

/-- C5 witness: an unknown name on an empty registry, and a registered handler
that throws. -/
theorem execute_never_throws_witness :
    (findTool [] "unknownTool" = none
      ∧ execute [] "unknownTool" [] { agents := [], files := [] }
          = { success := false, data := none, error := some "Unknown tool: unknownTool" })
  ∧ (findTool [throwingHandler] "boom" = some throwingHandler
      ∧ throwingHandler.run [] { agents := [], files := [] } = Except.error "kaput"
      ∧ execute [throwingHandler] "boom" [] { agents := [], files := [] }
          = { success := false, data := none, error := some "kaput" }) := by
  refine ⟨⟨rfl, ?_⟩, rfl, rfl, ?_⟩
  · exact ((execute_never_throws [] "unknownTool" [] { agents := [], files := [] }).1 rfl).1
  · exact (execute_never_throws [throwingHandler] "boom" []
      { agents := [], files := [] }).2 throwingHandler "kaput" rfl rfl

/-- C6: after an interruption signal the tracked playback-unit set is empty,
the playback clock is reset to 0, the output transcript accumulator is
cleared, the input accumulator and the finalized transcript are unchanged,
and the next payload (at device time `t ≥ 0`) is scheduled exactly at the
current device time rather than at any pre-interruption clock value. -/
theorem interruption_resets_playback_clears_output (s : SessState) (t dur : ℚ)
    (ht : 0 ≤ t) :
    (handleInterruptionSignal s).audio.sources = []
  ∧ (handleInterruptionSignal s).audio.nextStartTime = 0
  ∧ (handleInterruptionSignal s).currentOutputTranscript = ""
  ∧ (handleInterruptionSignal s).currentInputTranscript = s.currentInputTranscript
  ∧ (handleInterruptionSignal s).transcript = s.transcript
  ∧ (playAudio t dur (handleInterruptionSignal s).audio).2.start = t := by
  refine ⟨rfl, rfl, rfl, rfl, rfl, ?_⟩
  show max (0 : ℚ) t = t
  exact max_eq_right ht

/-- C6 witness: an interruption on a session whose clock is ahead, followed by
a payload at device time 7. -/
theorem interruption_resets_playback_clears_output_witness :
    (0 : ℚ) ≤ 7
  ∧ (playAudio 7 2 (handleInterruptionSignal
      { liveState with audio := { sources := [{ start := 0, dur := 9 }],
                                  nextStartTime := 9 } }).audio).2.start = 7 :=
  ⟨by decide,
   (interruption_resets_playback_clears_output
     { liveState with audio := { sources := [{ start := 0, dur := 9 }],
                                 nextStartTime := 9 } } 7 2 (by decide)).2.2.2.2.2⟩

/-- C7: routing to a target id absent from the registry (in particular any id
on an empty registry) fails with an agent-not-found error mentioning the
target id, and no network request is issued. -/
theorem route_unknown_agent_no_network (reg : Registry)
    (transport : TransportOutcome) (targetId task payload : String)
    (habs : regGet reg targetId = none) :
    route reg transport targetId task payload
      = (Except.error ("Agent " ++ targetId ++ " not found."), 0)
  ∧ ∃ pre suf, "Agent " ++ targetId ++ " not found." = pre ++ targetId ++ suf := by
  constructor
  · unfold route
    rw [habs]
  · exact ⟨"Agent ", " not found.", by simp⟩

/-- C7 witness: `route("missing-id", "task", payload)` on the empty registry,
for an arbitrary transport. -/
theorem route_unknown_agent_no_network_witness :
    regGet [] "missing-id" = none
  ∧ route [] (TransportOutcome.thrown "unreachable") "missing-id" "task" "{}"
      = (Except.error "Agent missing-id not found.", 0) :=
  ⟨rfl, (route_unknown_agent_no_network [] (TransportOutcome.thrown "unreachable")
    "missing-id" "task" "{}" rfl).1⟩

/-- C8: when a delegation call's routing fails, the failure is caught and
converted into a failure tool response sent for that call's id; the session
state (connection state, transcript, stream handle, files — the whole state)
is unchanged by the remote failure; and the subsequent calls of the batch are
still processed, each with its own response. -/
theorem dispatch_failure_converted_session_survives
    (routeO : FunctionCall → Except String String) (tools : List ToolHandler)
    (s : SessState) (fc : FunctionCall) (e : String) (post : List FunctionCall)
    (hname : fc.name = "dispatchToAgent") (hroute : routeO fc = Except.error e)
    (hopen : s.sessionOpen = true) :
    (runCall routeO tools s fc).1 = s
  ∧ (runCall routeO tools s fc).2.1
      = some { id := fc.id, name := fc.name, ok := false, message := e }
  ∧ (handleToolCalls routeO tools s (fc :: post)).2.1
      = { id := fc.id, name := fc.name, ok := false, message := e }
        :: (handleToolCalls routeO tools s post).2.1
  ∧ (handleToolCalls routeO tools s (fc :: post)).2.1.length = post.length + 1 := by
  have hres : callResult routeO tools s fc
      = { success := false, data := none, error := some e } := by
    unfold callResult
    rw [hname]
    simp [hroute]
  have h1 : (runCall routeO tools s fc).1 = s := by
    rw [runCall_eq]
    exact commitFile_of_failure fc _ s (by rw [hres])
  have h2 : (runCall routeO tools s fc).2.1
      = some { id := fc.id, name := fc.name, ok := false, message := e } := by
    rw [runCall_eq]
    simp [hopen, hres, responseFor]
  have h3 : (handleToolCalls routeO tools s (fc :: post)).2.1
      = { id := fc.id, name := fc.name, ok := false, message := e }
        :: (handleToolCalls routeO tools s post).2.1 := by
    rw [handleToolCalls_cons, h1, h2]
    rfl
  refine ⟨h1, h2, h3, ?_⟩
  rw [h3]
  simp [handleToolCalls_response_length routeO tools post s hopen]

/-- C8 witness: a failing delegation call followed by a local call on a live
session — the remote failure is reported for the first id and the second call
still gets a response. -/
theorem dispatch_failure_converted_session_survives_witness :
    dispatchCall.name = "dispatchToAgent"
  ∧ failingRoute dispatchCall = Except.error "remote down"
  ∧ liveState.sessionOpen = true
  ∧ (runCall failingRoute [] liveState dispatchCall).1 = liveState
  ∧ (handleToolCalls failingRoute [] liveState [dispatchCall, localCall]).2.1.length = 2 := by
  have h := dispatch_failure_converted_session_survives failingRoute [] liveState
    dispatchCall "remote down" [localCall] rfl rfl rfl
  exact ⟨rfl, rfl, rfl, h.1, h.2.2.2⟩

/-- C9: `EventEmitter.emit` is total (never throws) and isolates listener
failures: it produces exactly one outcome per subscribed listener, in order,
and the outcome of each listener is that listener's own run on the emitted
argument — a throw by an earlier listener is caught and does not prevent any
later listener from being invoked. -/
theorem emit_never_throws_isolates_failures {A : Type}
    (listeners : List (A → Except String Unit)) (a : A) :
    (emit listeners a).length = listeners.length
  ∧ ∀ i (h1 : i < listeners.length) (h2 : i < (emit listeners a).length),
      (emit listeners a).get ⟨i, h2⟩
        = (match listeners.get ⟨i, h1⟩ a with
           | Except.ok _ => ListenerOutcome.ok
           | Except.error e => ListenerOutcome.caught e) := by
  refine ⟨emit_length listeners a, ?_⟩
  induction listeners with
  | nil => intro i h1; simp at h1
  | cons l rest ih =>
    intro i h1 h2
    cases i with
    | zero => rfl
    | succ n =>
      have hr1 : n < rest.length := by simpa using h1
      have hr2 : n < (emit rest a).length := by
        rw [emit_length]; exact hr1
      exact ih n hr1 hr2

/-- C9 witness: two listeners where the first throws — both are invoked, the
throw is caught as the first outcome and the second listener still runs. -/
theorem emit_never_throws_isolates_failures_witness :
    (1 < listenerPair.length ∧ 1 < (emit listenerPair 0).length)
  ∧ (emit listenerPair 0).length = 2
  ∧ (emit listenerPair 0).get ⟨1, by decide⟩ = ListenerOutcome.ok
  ∧ emit listenerPair 0 = [ListenerOutcome.caught "boom", ListenerOutcome.ok] := by
  refine ⟨⟨by decide, by decide⟩, ?_, ?_, by decide⟩
  · exact (emit_never_throws_isolates_failures listenerPair 0).1
  · exact ((emit_never_throws_isolates_failures listenerPair 0).2 1
      (by decide) (by decide)).trans (by decide)

/-- C10: `createPcmBlob` stores `x * 32768` truncated into a 16-bit signed
integer with wraparound modulo 2 to the 16 rather than clamping: every
encoded sample lies in the interval from -32768 to 32767 and is congruent to
the truncated value modulo 65536, and the full-scale sample 1.0 wraps to
-32768 instead of saturating to 32767. -/
theorem createPcmBlob_wraps_not_clamps (x : ℚ) :
    (-32768 ≤ pcmSample x ∧ pcmSample x ≤ 32767)
  ∧ (pcmSample x - jsTrunc (x * 32768)) % 65536 = 0
  ∧ pcmSample 1 = -32768
  ∧ createPcmBlob [1] = [-32768] := by
  refine ⟨?_, ?_, ?_, ?_⟩
  · unfold pcmSample toInt16
    omega
  · unfold pcmSample toInt16
    omega
  · norm_num [pcmSample, jsTrunc, toInt16]
  · show [pcmSample 1] = [-32768]
    norm_num [pcmSample, jsTrunc, toInt16]

end LaunchPad
